import Mathlib

/-!
# Verification of the spreadsheet reconciliation importer

Shallow embedding of `src/app/api/upload-spreadsheet/route.ts` (the `POST`
handler): the record matcher, status validation, the diff engine, and the
preview/apply orchestration, together with the persist step's payload
construction (whose status-to-signoff coupling mirrors the `PATCH` handler in
`src/app/api/submissions/route.ts`).

Modelling conventions:
* JavaScript strings are `String`; `null`/`undefined` cells become `none` of
  `Option String`.  A `ParsedRow` holds the already-trimmed cell values, as
  produced by the parsing loop of the route.
* JS string truthiness (`if (row.id)`) is `strTruthy`: `none` and `some ""`
  are falsy.
* The record-store snapshot (`select('id, check_number, notes,
  completion_status')` plus the `sign_off_date` column touched by the apply
  phase) is a `List DbRecord` in fetch order.  `new Map(recs.map(r => [r.id,
  r]))` resolves duplicate keys to the *last* entry, hence `dbById_get`
  searches the reversed list; the check-number buckets keep insertion order,
  hence `dbByCheckNumber_get` is a `filter`.
* Storage writes (`supabase.from(...).update(payload).eq('id', id)`) update
  every record whose `id` matches; a write failure is modelled by an oracle
  `Update → Option String` giving the error message of a failing call, and a
  failed call leaves the store unchanged.
-/

namespace VoidChecks

/-- JS truthiness of a nullable/optional string: `null`, `undefined` and `""`
are falsy. -/
def strTruthy : Option String → Bool
  | none => false
  | some s => !(s == "")

/-- One data row of the uploaded sheet after the parsing loop: trimmed cell
values, `none` for an absent column (`null` for id/checkNumber, `undefined`
for notes/status in the source). -/
structure ParsedRow where
  rowNumber : Nat
  id : Option String
  checkNumber : Option String
  notes : Option String
  status : Option String
deriving DecidableEq

/-- A record of the `void_checks` table, with the four columns the importer
selects plus `sign_off_date`, which the apply phase writes. -/
structure DbRecord where
  id : String
  check_number : String
  notes : Option String
  completion_status : String
  sign_off_date : Option String
deriving DecidableEq

/-- `{from, to}` pair for one field (source field names `from`/`to`; `from`
is a Lean keyword). -/
structure Change where
  fromVal : String
  toVal : String
deriving DecidableEq

/-- The change set of one row: at most a `notes` and a `completion_status`
change. -/
structure Changes where
  notes : Option Change
  completion_status : Option Change
deriving DecidableEq

/-- A proposed mutation (the `Update` interface of the route). -/
structure Update where
  row : Nat
  id : String
  checkNumber : String
  changes : Changes
deriving DecidableEq

/-- A per-row warning (the `Warning` interface of the route). -/
structure Warning where
  row : Nat
  checkNumber : Option String
  message : String
deriving DecidableEq

/-- An entry of the `skipped` list (`{ row, id?, reason }`). -/
structure SkipEntry where
  row : Nat
  id : Option String
  reason : String
deriving DecidableEq

/-- An entry of the `applied` list returned by apply mode. -/
structure AppliedEntry where
  id : String
  checkNumber : String
deriving DecidableEq

/-- An entry of the `errors` list returned by apply mode. -/
structure PersistError where
  id : String
  error : String
deriving DecidableEq

/-- `const VALID_STATUSES = ['Pending', 'Complete', 'Request Invalidated']`. -/
def VALID_STATUSES : List String := ["Pending", "Complete", "Request Invalidated"]

/-- The blank-row filter of the parsing loop:
`if (!id && !checkNumber && !notes && !status) return;`. -/
def isBlankRow (r : ParsedRow) : Bool :=
  !strTruthy r.id && !strTruthy r.checkNumber && !strTruthy r.notes && !strTruthy r.status

/-- `new Map(dbRecords.map(r => [r.id, r])).get(i)`: with duplicate ids the
last entry wins, so we search the reversed fetch list. -/
def dbById_get (recs : List DbRecord) (i : String) : Option DbRecord :=
  recs.reverse.find? (fun r => r.id == i)

/-- The check-number bucket `dbByCheckNumber.get(cn) || []`: all records with
that `check_number`, in fetch order. -/
def dbByCheckNumber_get (recs : List DbRecord) (cn : String) : List DbRecord :=
  recs.filter (fun r => r.check_number == cn)

/-- `row.status && !VALID_STATUSES.includes(row.status)`. -/
def statusInvalid (row : ParsedRow) : Bool :=
  strTruthy row.status && !(VALID_STATUSES.contains (row.status.getD ""))

/-- The diff step of the loop: a `notes` change when the notes column was
present and the value differs from the stored notes (stored absence read as
`""` via `matchedRecord.notes || ''`), and a `completion_status` change when
the row's status is truthy and differs from the stored status. -/
def computeChanges (row : ParsedRow) (m : DbRecord) : Changes where
  notes :=
    match row.notes with
    | some n =>
        if n == m.notes.getD "" then none
        else some { fromVal := m.notes.getD "", toVal := n }
    | none => none
  completion_status :=
    match row.status with
    | some s =>
        if s != "" && s != m.completion_status then
          some { fromVal := m.completion_status, toVal := s }
        else none
    | none => none

/-- One per-row outcome of the matching/diff loop. -/
inductive Outcome where
  | upd (u : Update)
  | warn (w : Warning)
  | skip (s : SkipEntry)
deriving DecidableEq

/-- The tail of the loop body once `matchedRecord` is set: status validation,
diff, then update / skip. -/
def matchedOutcome (row : ParsedRow) (m : DbRecord) : Outcome :=
  if statusInvalid row then
    .warn
      { row := row.rowNumber, checkNumber := some m.check_number,
        message := "Invalid status \"" ++ row.status.getD "" ++ "\". Must be: "
          ++ String.intercalate ", " VALID_STATUSES }
  else
    let changes := computeChanges row m
    if changes.notes.isNone && changes.completion_status.isNone then
      .skip { row := row.rowNumber, id := some m.id, reason := "No changes" }
    else
      .upd { row := row.rowNumber, id := m.id, checkNumber := m.check_number,
             changes := changes }

/-- One iteration of the matching loop: `none` models the defensive
`if (!matchedRecord) continue;` path (falsy id and falsy checkNumber), which
produces no outcome at all. -/
def rowOutcome (recs : List DbRecord) (row : ParsedRow) : Option Outcome :=
  if strTruthy row.id then
    match dbById_get recs (row.id.getD "") with
    | some m => some (matchedOutcome row m)
    | none =>
        some (.warn
          { row := row.rowNumber, checkNumber := none,
            message := "No record found for ID \"" ++ row.id.getD "" ++ "\"" })
  else if strTruthy row.checkNumber then
    match dbByCheckNumber_get recs (row.checkNumber.getD "") with
    | [m] => some (matchedOutcome row m)
    | [] =>
        some (.warn
          { row := row.rowNumber, checkNumber := row.checkNumber,
            message := "No record found for Check #" ++ row.checkNumber.getD "" })
    | _ =>
        some (.warn
          { row := row.rowNumber, checkNumber := row.checkNumber,
            message := "Multiple records for Check #" ++ row.checkNumber.getD ""
              ++ " — skipped (ambiguous). Use a report with the ID column for exact matching." })
  else none

/-- The three accumulated result lists of the matching loop. -/
structure Outcomes where
  updates : List Update
  warnings : List Warning
  skipped : List SkipEntry
deriving DecidableEq

/-- The matching/diff loop over all parsed rows, pushing each outcome onto
the list it belongs to (input row order preserved). -/
def computeOutcomes (recs : List DbRecord) : List ParsedRow → Outcomes
  | [] => ⟨[], [], []⟩
  | row :: rest =>
      let o := computeOutcomes recs rest
      match rowOutcome recs row with
      | some (.upd u) => { o with updates := u :: o.updates }
      | some (.warn w) => { o with warnings := w :: o.warnings }
      | some (.skip s) => { o with skipped := s :: o.skipped }
      | none => o

/-- The partial update payload built for one `Update` in apply mode.  The
outer `Option` of `sign_off_date` is field presence in the payload; the inner
one distinguishes a timestamp from SQL `null`. -/
structure Payload where
  notes : Option String
  completion_status : Option String
  sign_off_date : Option (Option String)
deriving DecidableEq

/-- Payload construction of the apply loop: `notes` if the update carries a
notes change; `completion_status` plus the derived `sign_off_date` (now when
the new status is `Complete`, `null` otherwise) if it carries a status
change. -/
def mkPayload (u : Update) (now : String) : Payload where
  notes := u.changes.notes.map (·.toVal)
  completion_status := u.changes.completion_status.map (·.toVal)
  sign_off_date :=
    u.changes.completion_status.map
      (fun ch => if ch.toVal == "Complete" then some now else none)

/-- Apply a partial payload to one record: only fields present in the payload
are overwritten. -/
def applyPayload (r : DbRecord) (p : Payload) : DbRecord where
  id := r.id
  check_number := r.check_number
  notes := match p.notes with | some v => some v | none => r.notes
  completion_status := p.completion_status.getD r.completion_status
  sign_off_date := match p.sign_off_date with | some v => v | none => r.sign_off_date

/-- `supabase.from(TABLE_NAME).update(payload).eq('id', i)`: every record
whose `id` equals `i` receives the payload. -/
def writeOne (recs : List DbRecord) (i : String) (p : Payload) : List DbRecord :=
  recs.map (fun r => if r.id == i then applyPayload r p else r)

/-- The apply loop: persist each update independently and in order, recording
a `PersistError` on a failed call (store unchanged) and an `AppliedEntry` on
a successful one.  `oracle u = some msg` models the storage call for `u`
failing with message `msg`. -/
def persistUpdates (oracle : Update → Option String) (now : String) :
    List Update → List DbRecord →
      List AppliedEntry × List PersistError × List DbRecord
  | [], recs => ([], [], recs)
  | u :: rest, recs =>
      match oracle u with
      | some msg =>
          let t := persistUpdates oracle now rest recs
          (t.1, { id := u.id, error := msg } :: t.2.1, t.2.2)
      | none =>
          let t := persistUpdates oracle now rest (writeOne recs u.id (mkPayload u now))
          ({ id := u.id, checkNumber := u.checkNumber } :: t.1, t.2.1, t.2.2)

/-- The JSON body returned by the handler after the pipeline ran. -/
inductive Response where
  | preview (out : Outcomes)
  | applied (applied : List AppliedEntry) (errors : List PersistError)
      (warnings : List Warning) (skipped : List SkipEntry)
deriving DecidableEq

/-- The `POST` handler from the matching loop on: compute the three lists
once, then either return them (`action === 'preview'`) or run the apply loop
and return its report.  The second component is the record store after the
request.  `action = none` models an absent `action` form field. -/
def handlePost (action : Option String) (recs : List DbRecord)
    (rows : List ParsedRow) (oracle : Update → Option String) (now : String) :
    Response × List DbRecord :=
  let out := computeOutcomes recs rows
  if action == some "preview" then
    (.preview out, recs)
  else
    let t := persistUpdates oracle now out.updates recs
    (.applied t.1 t.2.1 out.warnings out.skipped, t.2.2)

/-- Modelled from the spec: "apply mode is preview mode followed by a persist
step" — run the preview pipeline, then persist its `updates` list. -/
def previewThenPersist (recs : List DbRecord) (rows : List ParsedRow)
    (oracle : Update → Option String) (now : String) :
    Response × List DbRecord :=
  let pv := computeOutcomes recs rows
  let t := persistUpdates oracle now pv.updates recs
  (.applied t.1 t.2.1 pv.warnings pv.skipped, t.2.2)

/-- The `matchedRecord` variable at the end of the matching section of the
loop body: the record the row resolves to, if any. -/
def matchRecord (recs : List DbRecord) (row : ParsedRow) : Option DbRecord :=
  if strTruthy row.id then dbById_get recs (row.id.getD "")
  else if strTruthy row.checkNumber then
    match dbByCheckNumber_get recs (row.checkNumber.getD "") with
    | [m] => some m
    | _ => none
  else none

/-- Projection of an outcome onto the `updates` list. -/
def updOf : Outcome → Option Update
  | .upd u => some u
  | _ => none

/-- Projection of an outcome onto the `warnings` list. -/
def warnOf : Outcome → Option Warning
  | .warn w => some w
  | _ => none

/-- Projection of an outcome onto the `skipped` list. -/
def skipOf : Outcome → Option SkipEntry
  | .skip s => some s
  | _ => none

/-- The id of the record an outcome touched (matched): the update's target id
or the skip entry's id; warnings touch no record. -/
def touchedOf : Outcome → Option String
  | .upd u => some u.id
  | .skip s => s.id
  | .warn _ => none

/-- The id of the stored record a row resolved to, when its outcome is an
update or a skip. -/
def touchedId (recs : List DbRecord) (row : ParsedRow) : Option String :=
  (rowOutcome recs row).bind touchedOf

/-- The cumulative effect of the apply loop on one record: fold the payloads
of the updates targeting its id over it, in order. -/
def applyUpdList (us : List Update) (now : String) (r : DbRecord) : DbRecord :=
  us.foldl (fun x u => if x.id == u.id then applyPayload x (mkPayload u now) else x) r

/-- The image of an outcome after one apply/re-preview round trip: updates
become "No changes" skips; warnings and skips are reproduced verbatim. -/
def roundTrip : Outcome → Outcome
  | .upd u => .skip { row := u.row, id := some u.id, reason := "No changes" }
  | .warn w => .warn w
  | .skip s => .skip s

/-- Scenario A stored record: id "1", check 100, empty notes, Pending. -/
def exRecA0 : DbRecord := ⟨"1", "100", some "", "Pending", none⟩

/-- Scenario A snapshot. -/
def exRecsA : List DbRecord := [exRecA0]

/-- Scenario A sheet row: id "1", notes "reviewed", status "Complete". -/
def exRowA : ParsedRow := ⟨2, some "1", some "100", some "reviewed", some "Complete"⟩

/-- The update Scenario A produces. -/
def exUpdA : Update :=
  ⟨2, "1", "100", ⟨some ⟨"", "reviewed"⟩, some ⟨"Pending", "Complete"⟩⟩⟩

/-- A stored record with check number 200, for the fallback examples. -/
def c3rec : DbRecord := ⟨"1", "200", none, "Pending", none⟩

/-- A sheet row with empty id and checkNumber 200. -/
def c3row : ParsedRow := ⟨2, some "", some "200", some "n2", none⟩

/-- A sheet row carrying the unrecognized status "Voided" and differing
notes. -/
def c6row : ParsedRow := ⟨2, some "1", none, some "different", some "Voided"⟩

theorem computeOutcomes_updates (recs : List DbRecord) (rows : List ParsedRow) :
    (computeOutcomes recs rows).updates
      = rows.filterMap (fun r => (rowOutcome recs r).bind updOf) := by
  induction rows with
  | nil => rfl
  | cons row rest ih =>
    simp only [computeOutcomes, List.filterMap_cons]
    cases h : rowOutcome recs row with
    | none => simpa using ih
    | some o => cases o <;> simp [updOf, Option.bind, ih]

theorem computeOutcomes_warnings (recs : List DbRecord) (rows : List ParsedRow) :
    (computeOutcomes recs rows).warnings
      = rows.filterMap (fun r => (rowOutcome recs r).bind warnOf) := by
  induction rows with
  | nil => rfl
  | cons row rest ih =>
    simp only [computeOutcomes, List.filterMap_cons]
    cases h : rowOutcome recs row with
    | none => simpa using ih
    | some o => cases o <;> simp [warnOf, Option.bind, ih]

theorem computeOutcomes_skipped (recs : List DbRecord) (rows : List ParsedRow) :
    (computeOutcomes recs rows).skipped
      = rows.filterMap (fun r => (rowOutcome recs r).bind skipOf) := by
  induction rows with
  | nil => rfl
  | cons row rest ih =>
    simp only [computeOutcomes, List.filterMap_cons]
    cases h : rowOutcome recs row with
    | none => simpa using ih
    | some o => cases o <;> simp [skipOf, Option.bind, ih]

/-- A row yields an outcome exactly when its id or its checkNumber is
truthy. -/
theorem rowOutcome_isSome (recs : List DbRecord) (row : ParsedRow) :
    (rowOutcome recs row).isSome = (strTruthy row.id || strTruthy row.checkNumber) := by
  unfold rowOutcome
  cases hid : strTruthy row.id
  · cases hcn : strTruthy row.checkNumber
    · simp
    · simp only [Bool.false_eq_true, if_false, if_true, Bool.false_or]
      cases dbByCheckNumber_get recs (row.checkNumber.getD "") with
      | nil => simp
      | cons a t => cases t <;> simp
  · simp only [if_true, Bool.true_or]
    cases dbById_get recs (row.id.getD "") <;> simp

/-- When the matching section resolves a record, the row's outcome is the
validation/diff tail applied to it. -/
theorem rowOutcome_of_matched (recs : List DbRecord) (row : ParsedRow)
    (m : DbRecord) (h : matchRecord recs row = some m) :
    rowOutcome recs row = some (matchedOutcome row m) := by
  unfold matchRecord at h
  unfold rowOutcome
  cases hid : strTruthy row.id
  · cases hcn : strTruthy row.checkNumber
    · simp [hid, hcn] at h
    · simp only [hid, hcn, Bool.false_eq_true, if_false, if_true] at h ⊢
      cases hbk : dbByCheckNumber_get recs (row.checkNumber.getD "") with
      | nil => simp [hbk] at h
      | cons a t =>
        cases t with
        | nil => simp [hbk] at h; simp [h]
        | cons b t' => simp [hbk] at h
  · simp only [hid, if_true] at h ⊢
    rw [h]

/-- A matched row warns only on an invalid status, and the warning carries
the matched record's check number. -/
theorem matchedOutcome_warn (row : ParsedRow) (m : DbRecord) (w : Warning)
    (h : matchedOutcome row m = .warn w) :
    statusInvalid row = true
    ∧ w = { row := row.rowNumber, checkNumber := some m.check_number,
            message := "Invalid status \"" ++ row.status.getD "" ++ "\". Must be: "
              ++ String.intercalate ", " VALID_STATUSES } := by
  unfold matchedOutcome at h
  cases hv : statusInvalid row
  · simp only [hv, Bool.false_eq_true, if_false] at h
    split at h <;> simp at h
  · simp only [hv, if_true, Outcome.warn.injEq] at h
    exact ⟨rfl, h.symm⟩

/-- A matched row skips only when its status is valid and its diff is empty,
and the skip entry carries the matched record's id. -/
theorem matchedOutcome_skip (row : ParsedRow) (m : DbRecord) (s : SkipEntry)
    (h : matchedOutcome row m = .skip s) :
    statusInvalid row = false
    ∧ computeChanges row m = ⟨none, none⟩
    ∧ s = { row := row.rowNumber, id := some m.id, reason := "No changes" } := by
  unfold matchedOutcome at h
  cases hv : statusInvalid row
  · simp only [hv, Bool.false_eq_true, if_false] at h
    split at h
    case isTrue hc =>
      refine ⟨rfl, ?_, by simpa using h.symm⟩
      have h1 := hc
      cases hn : (computeChanges row m).notes <;>
        cases hs : (computeChanges row m).completion_status <;>
          simp_all [Option.isNone]
      cases hcc : computeChanges row m
      simp_all
    case isFalse => simp at h
  · simp [hv] at h

/-- A matched row produces an update only when its status is valid and its
diff is nonempty, and the update carries exactly row number, matched id,
matched check number and the computed change set. -/
theorem matchedOutcome_upd (row : ParsedRow) (m : DbRecord) (u : Update)
    (h : matchedOutcome row m = .upd u) :
    statusInvalid row = false
    ∧ computeChanges row m ≠ ⟨none, none⟩
    ∧ u = { row := row.rowNumber, id := m.id, checkNumber := m.check_number,
            changes := computeChanges row m } := by
  unfold matchedOutcome at h
  cases hv : statusInvalid row
  · simp only [hv, Bool.false_eq_true, if_false] at h
    split at h
    case isTrue => simp at h
    case isFalse hc =>
      refine ⟨rfl, ?_, by simpa using h.symm⟩
      intro hcc
      simp [hcc, Option.isNone] at hc
  · simp [hv] at h

/-- C1: preview mode and apply mode compute the identical change set from the
same snapshot and parsed rows — apply mode is the preview pipeline followed
by the persist step — and preview mode returns the record store unchanged
(no write). -/
theorem c1_preview_apply_agree (recs : List DbRecord) (rows : List ParsedRow)
    (oracle : Update → Option String) (now : String) :
    handlePost (some "preview") recs rows oracle now
      = (.preview (computeOutcomes recs rows), recs)
    ∧ handlePost (some "apply") recs rows oracle now
      = previewThenPersist recs rows oracle now := by
  constructor
  · simp [handlePost]
  · simp [handlePost, previewThenPersist]

/-- C10: any action other than the exact string `"preview"` — including an
absent action — takes the apply path: the handler behaves exactly as the
preview-then-persist composition, persisting the computed updates; no action
value is rejected. -/
theorem c10_non_preview_applies (action : Option String) (recs : List DbRecord)
    (rows : List ParsedRow) (oracle : Update → Option String) (now : String)
    (h : action ≠ some "preview") :
    handlePost action recs rows oracle now
      = previewThenPersist recs rows oracle now := by
  simp [handlePost, previewThenPersist, h]

/-- C9: each persist attempt is independent: the applied list is exactly the
updates whose storage call succeeded and the errors list is exactly the id
and message of each failing call, both in input order; a failure removes
nothing else from either list. -/
theorem c9_persist_independent (oracle : Update → Option String) (now : String)
    (us : List Update) (recs : List DbRecord) :
    (persistUpdates oracle now us recs).1
      = (us.filter (fun u => (oracle u).isNone)).map
          (fun u => { id := u.id, checkNumber := u.checkNumber })
    ∧ (persistUpdates oracle now us recs).2.1
      = us.filterMap
          (fun u => (oracle u).map (fun msg => { id := u.id, error := msg })) := by
  induction us generalizing recs with
  | nil => exact ⟨rfl, rfl⟩
  | cons u rest ih =>
    cases h : oracle u with
    | none =>
        simpa [persistUpdates, h, List.filter_cons, List.filterMap_cons]
          using ih (writeOne recs u.id (mkPayload u now))
    | some msg =>
        simpa [persistUpdates, h, List.filter_cons, List.filterMap_cons]
          using ih recs

/-- C2: a row whose trimmed id is non-empty but absent from the id index is
warned with a message citing that id, and check-number matching is never
attempted for it: its one outcome is that warning (no update, no skip),
whatever its checkNumber is. -/
theorem c2_unknown_id_warns (recs : List DbRecord) (rows : List ParsedRow)
    (row : ParsedRow) (i : String) (hmem : row ∈ rows) (hid : row.id = some i)
    (hne : i ≠ "") (hmiss : dbById_get recs i = none) :
    rowOutcome recs row
      = some (.warn
          { row := row.rowNumber, checkNumber := none,
            message := "No record found for ID \"" ++ i ++ "\"" })
    ∧ ({ row := row.rowNumber, checkNumber := none,
          message := "No record found for ID \"" ++ i ++ "\"" } : Warning)
        ∈ (computeOutcomes recs rows).warnings := by
  have hout : rowOutcome recs row
      = some (.warn
          { row := row.rowNumber, checkNumber := none,
            message := "No record found for ID \"" ++ i ++ "\"" }) := by
    unfold rowOutcome
    simp [strTruthy, hid, hne, hmiss]
  refine ⟨hout, ?_⟩
  rw [computeOutcomes_warnings]
  exact List.mem_filterMap.mpr ⟨row, hmem, by rw [hout]; rfl⟩

/-- C4 counterexample: a row with empty id and checkNumber but non-empty
notes survives the blank-row filter, yet contributes to none of the three
output lists — it is silently dropped with no outcome, contradicting the
claim that every surviving row appears in exactly one list. -/
theorem c4_counterexample :
    isBlankRow { rowNumber := 2, id := some "", checkNumber := some "",
                 notes := some "x", status := none } = false
    ∧ computeOutcomes []
        [{ rowNumber := 2, id := some "", checkNumber := some "",
           notes := some "x", status := none }] = ⟨[], [], []⟩ := by
  exact ⟨rfl, rfl⟩

/-- C4 (amended): a surviving row produces exactly one outcome when its id or
its checkNumber is non-empty — the three output lists together hold exactly
one entry per such row — while a surviving row with both empty produces no
outcome at all. -/
theorem c4_amended (recs : List DbRecord) (rows : List ParsedRow) :
    (computeOutcomes recs rows).updates.length
        + (computeOutcomes recs rows).warnings.length
        + (computeOutcomes recs rows).skipped.length
      = (rows.filter (fun r => strTruthy r.id || strTruthy r.checkNumber)).length
    ∧ ∀ r : ParsedRow,
        (rowOutcome recs r).isSome = (strTruthy r.id || strTruthy r.checkNumber) := by
  refine ⟨?_, rowOutcome_isSome recs⟩
  induction rows with
  | nil => rfl
  | cons row rest ih =>
    have hp : (strTruthy row.id || strTruthy row.checkNumber)
        = (rowOutcome recs row).isSome := (rowOutcome_isSome recs row).symm
    cases h : rowOutcome recs row with
    | none => simpa [computeOutcomes, h, List.filter_cons, hp] using ih
    | some o =>
        cases o <;>
          · simp only [computeOutcomes, h, List.filter_cons, hp, Option.isSome_some,
              if_true, List.length_cons]
            omega

/-- C5: for a matched, status-valid row the change set has a notes change
exactly when the notes column was present and the value differs from the
stored notes (absence read as `""`), and a completion_status change exactly
when the row's status is non-empty and differs from the stored status; the
changes carry those from/to values, an empty change set yields the skip
"No changes", and a nonempty one yields an update carrying exactly the
computed change set. -/
theorem c5_diff_engine (recs : List DbRecord) (row : ParsedRow) (m : DbRecord)
    (hm : matchRecord recs row = some m) (hv : statusInvalid row = false) :
    ((computeChanges row m).notes.isSome
        ↔ ∃ n, row.notes = some n ∧ n ≠ m.notes.getD "")
    ∧ ((computeChanges row m).completion_status.isSome
        ↔ ∃ s, row.status = some s ∧ s ≠ "" ∧ s ≠ m.completion_status)
    ∧ (∀ ch, (computeChanges row m).notes = some ch
        → ch = { fromVal := m.notes.getD "", toVal := row.notes.getD "" })
    ∧ (∀ ch, (computeChanges row m).completion_status = some ch
        → ch = { fromVal := m.completion_status, toVal := row.status.getD "" })
    ∧ (computeChanges row m = ⟨none, none⟩
        → rowOutcome recs row
            = some (.skip { row := row.rowNumber, id := some m.id, reason := "No changes" }))
    ∧ (computeChanges row m ≠ ⟨none, none⟩
        → rowOutcome recs row
            = some (.upd { row := row.rowNumber, id := m.id, checkNumber := m.check_number,
                           changes := computeChanges row m })) := by
  refine ⟨?_, ?_, ?_, ?_, ?_, ?_⟩
  · unfold computeChanges
    cases hn : row.notes with
    | none => simp
    | some n =>
        by_cases hne : n = m.notes.getD "" <;> simp [hne]
  · unfold computeChanges
    cases hs : row.status with
    | none => simp
    | some s =>
        by_cases h1 : s = "" <;> by_cases h2 : s = m.completion_status <;> simp [h1, h2]
  · intro ch hch
    unfold computeChanges at hch
    cases hn : row.notes with
    | none => simp [hn] at hch
    | some n =>
        simp only [hn] at hch
        split at hch
        · simp at hch
        · simpa [hn] using hch.symm
  · intro ch hch
    unfold computeChanges at hch
    cases hs : row.status with
    | none => simp [hs] at hch
    | some s =>
        simp only [hs] at hch
        split at hch
        · simpa [hs] using hch.symm
        · simp at hch
  · intro hcc
    rw [rowOutcome_of_matched recs row m hm]
    unfold matchedOutcome
    simp [hv, hcc]
  · intro hcc
    rw [rowOutcome_of_matched recs row m hm]
    unfold matchedOutcome
    have : ((computeChanges row m).notes.isNone
        && (computeChanges row m).completion_status.isNone) = false := by
      cases hn : (computeChanges row m).notes <;>
        cases hs : (computeChanges row m).completion_status <;> simp_all
      exact hcc (by cases hcc2 : computeChanges row m; simp_all)
    simp [hv, this]

/-- C6: a matched row with a non-empty status outside the allowed list yields
the invalid-status warning and is excluded from diffing entirely — its single
outcome is the warning, so no update is produced even when its notes value
differs from the stored notes. -/
theorem c6_invalid_status_rejected (recs : List DbRecord) (row : ParsedRow)
    (m : DbRecord) (s : String) (hm : matchRecord recs row = some m)
    (hs : row.status = some s) (hne : s ≠ "") (hinv : s ∉ VALID_STATUSES) :
    rowOutcome recs row
      = some (.warn
          { row := row.rowNumber, checkNumber := some m.check_number,
            message := "Invalid status \"" ++ s
              ++ "\". Must be: Pending, Complete, Request Invalidated" }) := by
  rw [rowOutcome_of_matched recs row m hm]
  have hv : statusInvalid row = true := by
    unfold statusInvalid
    simp [strTruthy, hs, hne, hinv]
  unfold matchedOutcome
  simp only [hv, if_true]
  have : String.intercalate ", " VALID_STATUSES
      = "Pending, Complete, Request Invalidated" := by decide
  simp [hs, this, String.append_assoc]

/-- C8: the persisted payload of an update carries `notes` exactly when the
update has a notes change and `completion_status` exactly when it has a
status change; whenever `completion_status` is written, `sign_off_date` is
written too — the current time if the new status is `Complete`, `null`
otherwise — so the stored record's sign_off_date becomes non-null precisely
on a persisted transition to `Complete`, and is untouched when no status is
written. -/
theorem c8_signoff_coupling (u : Update) (now : String) (r : DbRecord) :
    ((mkPayload u now).notes.isSome ↔ u.changes.notes.isSome)
    ∧ ((mkPayload u now).completion_status.isSome ↔ u.changes.completion_status.isSome)
    ∧ ((mkPayload u now).sign_off_date.isSome ↔ u.changes.completion_status.isSome)
    ∧ (∀ ch, u.changes.completion_status = some ch
        → ((applyPayload r (mkPayload u now)).sign_off_date ≠ none
            ↔ ch.toVal = "Complete"))
    ∧ (u.changes.completion_status = none
        → (applyPayload r (mkPayload u now)).sign_off_date = r.sign_off_date) := by
  refine ⟨by simp [mkPayload], by simp [mkPayload], by simp [mkPayload], ?_, ?_⟩
  · intro ch hch
    by_cases hc : ch.toVal = "Complete" <;>
      simp [mkPayload, applyPayload, hch, hc]
  · intro hch
    simp [mkPayload, applyPayload, hch]

/-- An update outcome of a row of the run appears in the `updates` list. -/
theorem mem_updates_of_outcome (recs : List DbRecord) (rows : List ParsedRow)
    (row : ParsedRow) (u : Update) (hmem : row ∈ rows)
    (h : rowOutcome recs row = some (.upd u)) :
    u ∈ (computeOutcomes recs rows).updates := by
  rw [computeOutcomes_updates]
  exact List.mem_filterMap.mpr ⟨row, hmem, by rw [h]; rfl⟩

/-- A warning outcome of a row of the run appears in the `warnings` list. -/
theorem mem_warnings_of_outcome (recs : List DbRecord) (rows : List ParsedRow)
    (row : ParsedRow) (w : Warning) (hmem : row ∈ rows)
    (h : rowOutcome recs row = some (.warn w)) :
    w ∈ (computeOutcomes recs rows).warnings := by
  rw [computeOutcomes_warnings]
  exact List.mem_filterMap.mpr ⟨row, hmem, by rw [h]; rfl⟩

/-- A skip outcome of a row of the run appears in the `skipped` list. -/
theorem mem_skipped_of_outcome (recs : List DbRecord) (rows : List ParsedRow)
    (row : ParsedRow) (s : SkipEntry) (hmem : row ∈ rows)
    (h : rowOutcome recs row = some (.skip s)) :
    s ∈ (computeOutcomes recs rows).skipped := by
  rw [computeOutcomes_skipped]
  exact List.mem_filterMap.mpr ⟨row, hmem, by rw [h]; rfl⟩

/-- A status-valid matched row with an empty diff skips with "No changes". -/
theorem matchedOutcome_eq_skip (row : ParsedRow) (m : DbRecord)
    (hv : statusInvalid row = false) (hcc : computeChanges row m = ⟨none, none⟩) :
    matchedOutcome row m
      = .skip { row := row.rowNumber, id := some m.id, reason := "No changes" } := by
  unfold matchedOutcome
  simp [hv, hcc]

/-- A status-valid matched row with a nonempty diff produces the update
carrying the computed change set. -/
theorem matchedOutcome_eq_upd (row : ParsedRow) (m : DbRecord)
    (hv : statusInvalid row = false) (hcc : computeChanges row m ≠ ⟨none, none⟩) :
    matchedOutcome row m
      = .upd { row := row.rowNumber, id := m.id, checkNumber := m.check_number,
               changes := computeChanges row m } := by
  unfold matchedOutcome
  have : ((computeChanges row m).notes.isNone
      && (computeChanges row m).completion_status.isNone) = false := by
    cases hn : (computeChanges row m).notes <;>
      cases hs : (computeChanges row m).completion_status <;> simp_all
    exact hcc (by cases hcc2 : computeChanges row m; simp_all)
  simp [hv, this]

/-- C3 counterexample: a row with empty id whose checkNumber matches exactly
one stored record can still be warned — an invalid status value ("Voided")
yields a Warning, not an Update or a Skip, refuting the claim's
"never a Warning" for unique-match rows. -/
theorem c3_counterexample :
    (dbByCheckNumber_get [⟨"1", "200", none, "Pending", none⟩] "200").length = 1
    ∧ strTruthy (some "") = false
    ∧ rowOutcome [⟨"1", "200", none, "Pending", none⟩]
        ⟨2, some "", some "200", none, some "Voided"⟩
      = some (.warn ⟨2, some "200",
          "Invalid status \"Voided\". Must be: Pending, Complete, Request Invalidated"⟩) := by
  refine ⟨rfl, rfl, by decide⟩

/-- C3 (amended): for a row with empty id and non-empty checkNumber —
*provided its status is valid* — a bucket of exactly one stored record yields
an Update (diff nonempty) or a Skip (diff empty) and never a Warning, while a
bucket of zero or of two-or-more records yields a Warning and never an
Update, without arbitrarily picking a record. -/
theorem c3_checknumber_fallback (recs : List DbRecord) (rows : List ParsedRow)
    (row : ParsedRow) (cn : String) (hmem : row ∈ rows)
    (hid : strTruthy row.id = false) (hcn : row.checkNumber = some cn)
    (hcne : cn ≠ "") :
    (∀ m, dbByCheckNumber_get recs cn = [m] → statusInvalid row = false →
        (computeChanges row m = ⟨none, none⟩
            ∧ rowOutcome recs row
                = some (.skip { row := row.rowNumber, id := some m.id, reason := "No changes" })
            ∧ ({ row := row.rowNumber, id := some m.id, reason := "No changes" } : SkipEntry)
                ∈ (computeOutcomes recs rows).skipped)
        ∨ (computeChanges row m ≠ ⟨none, none⟩
            ∧ rowOutcome recs row
                = some (.upd
                    { row := row.rowNumber, id := m.id,
                      checkNumber := m.check_number, changes := computeChanges row m })
            ∧ ({ row := row.rowNumber, id := m.id, checkNumber := m.check_number,
                  changes := computeChanges row m } : Update)
                ∈ (computeOutcomes recs rows).updates))
    ∧ ((dbByCheckNumber_get recs cn).length ≠ 1 →
        ∃ w, rowOutcome recs row = some (.warn w)
          ∧ w ∈ (computeOutcomes recs rows).warnings) := by
  have hct : strTruthy (some cn) = true := by simp [strTruthy, hcne]
  constructor
  · intro m hbk hv
    have hmr : matchRecord recs row = some m := by
      unfold matchRecord
      simp [hid, hcn, hct, hbk]
    have hro := rowOutcome_of_matched recs row m hmr
    by_cases hcc : computeChanges row m = ⟨none, none⟩
    · left
      have ho : rowOutcome recs row
          = some (.skip { row := row.rowNumber, id := some m.id, reason := "No changes" }) := by
        rw [hro, matchedOutcome_eq_skip row m hv hcc]
      exact ⟨hcc, ho, mem_skipped_of_outcome recs rows row _ hmem ho⟩
    · right
      have ho : rowOutcome recs row
          = some (.upd
              { row := row.rowNumber, id := m.id, checkNumber := m.check_number,
                changes := computeChanges row m }) := by
        rw [hro, matchedOutcome_eq_upd row m hv hcc]
      exact ⟨hcc, ho, mem_updates_of_outcome recs rows row _ hmem ho⟩
  · intro hlen
    cases hbk : dbByCheckNumber_get recs cn with
    | nil =>
        have hw : rowOutcome recs row
            = some (.warn
                { row := row.rowNumber, checkNumber := some cn,
                  message := "No record found for Check #" ++ cn }) := by
          unfold rowOutcome
          simp [hid, hcn, hct, hbk]
        exact ⟨_, hw, mem_warnings_of_outcome recs rows row _ hmem hw⟩
    | cons a t =>
        cases t with
        | nil => exact absurd (by simp [hbk]) hlen
        | cons b t' =>
            have hw : rowOutcome recs row
                = some (.warn
                    { row := row.rowNumber, checkNumber := some cn,
                      message := "Multiple records for Check #" ++ cn
                        ++ " — skipped (ambiguous). Use a report with the ID column for exact matching." }) := by
              unfold rowOutcome
              simp [hid, hcn, hct, hbk]
            exact ⟨_, hw, mem_warnings_of_outcome recs rows row _ hmem hw⟩

theorem applyPayload_id (r : DbRecord) (p : Payload) : (applyPayload r p).id = r.id := rfl

theorem applyPayload_check_number (r : DbRecord) (p : Payload) :
    (applyPayload r p).check_number = r.check_number := rfl

theorem applyUpdList_id (us : List Update) (now : String) (r : DbRecord) :
    (applyUpdList us now r).id = r.id := by
  induction us generalizing r with
  | nil => rfl
  | cons u rest ih =>
      unfold applyUpdList at ih ⊢
      rw [List.foldl_cons]
      split
      · rw [ih, applyPayload_id]
      · rw [ih]

theorem applyUpdList_check_number (us : List Update) (now : String) (r : DbRecord) :
    (applyUpdList us now r).check_number = r.check_number := by
  induction us generalizing r with
  | nil => rfl
  | cons u rest ih =>
      unfold applyUpdList at ih ⊢
      rw [List.foldl_cons]
      split
      · rw [ih, applyPayload_check_number]
      · rw [ih]

/-- With no failing write, the record store after the apply loop is the fold
of the per-update writes. -/
theorem persistUpdates_noFail_store (now : String) (us : List Update)
    (recs : List DbRecord) :
    (persistUpdates (fun _ => none) now us recs).2.2
      = us.foldl (fun acc u => writeOne acc u.id (mkPayload u now)) recs := by
  induction us generalizing recs with
  | nil => rfl
  | cons u rest ih => simpa [persistUpdates] using ih (writeOne recs u.id (mkPayload u now))

/-- The write fold acts pointwise: each record receives, in order, the
payloads of the updates targeting its id. -/
theorem foldl_writeOne_eq_map (now : String) (us : List Update)
    (recs : List DbRecord) :
    us.foldl (fun acc u => writeOne acc u.id (mkPayload u now)) recs
      = recs.map (applyUpdList us now) := by
  induction us generalizing recs with
  | nil =>
      have : recs.map (applyUpdList [] now) = recs.map id :=
        List.map_congr_left (fun r _ => rfl)
      simp [this]
  | cons u rest ih =>
      rw [List.foldl_cons, ih, writeOne, List.map_map]
      apply List.map_congr_left
      intro r _
      rfl

/-- `find?` by id commutes with an id-preserving map. -/
theorem find?_id_map (l : List DbRecord) (f : DbRecord → DbRecord)
    (hf : ∀ r, (f r).id = r.id) (i : String) :
    (l.map f).find? (fun r => r.id == i) = (l.find? (fun r => r.id == i)).map f := by
  induction l with
  | nil => rfl
  | cons a t ih =>
      by_cases h : (a.id == i) = true
      · rw [List.map_cons, List.find?_cons_of_pos, List.find?_cons_of_pos] <;>
          simp [hf, h]
      · rw [List.map_cons, List.find?_cons_of_neg, List.find?_cons_of_neg, ih] <;>
          simp [hf, h]

/-- The id index built after an id-preserving rewrite of the store returns
the rewritten image of the record the original index returned. -/
theorem dbById_get_map (recs : List DbRecord) (f : DbRecord → DbRecord)
    (hf : ∀ r, (f r).id = r.id) (i : String) :
    dbById_get (recs.map f) i = (dbById_get recs i).map f := by
  unfold dbById_get
  rw [← List.map_reverse, find?_id_map recs.reverse f hf i]

/-- The check-number buckets built after a check-number-preserving rewrite of
the store are the rewritten images of the original buckets. -/
theorem dbByCheckNumber_get_map (recs : List DbRecord) (f : DbRecord → DbRecord)
    (hf : ∀ r, (f r).check_number = r.check_number) (cn : String) :
    dbByCheckNumber_get (recs.map f) cn = (dbByCheckNumber_get recs cn).map f := by
  unfold dbByCheckNumber_get
  induction recs with
  | nil => rfl
  | cons a t ih =>
      by_cases h : (a.check_number == cn) = true <;>
        simp [List.filter_cons, hf, h, ih]

/-- A record targeted by none of the updates is unchanged by the apply
fold. -/
theorem applyUpdList_eq_self (us : List Update) (now : String) (r : DbRecord)
    (h : ∀ u ∈ us, u.id ≠ r.id) : applyUpdList us now r = r := by
  induction us with
  | nil => rfl
  | cons u rest ih =>
      unfold applyUpdList
      rw [List.foldl_cons]
      have hne : (r.id == u.id) = false := by
        simp [Ne.symm (h u (List.mem_cons_self u rest))]
      rw [hne]
      exact ih (fun v hv => h v (List.mem_cons_of_mem u hv))

theorem applyUpdList_append (l1 l2 : List Update) (now : String) (r : DbRecord) :
    applyUpdList (l1 ++ l2) now r = applyUpdList l2 now (applyUpdList l1 now r) := by
  unfold applyUpdList
  exact List.foldl_append ..

/-- When exactly one update of the list targets a record's id, the apply fold
on that record is that single payload application. -/
theorem applyUpdList_single (l1 l2 : List Update) (u : Update) (now : String)
    (r : DbRecord) (h1 : ∀ v ∈ l1, v.id ≠ r.id) (h2 : ∀ v ∈ l2, v.id ≠ r.id)
    (hu : u.id = r.id) :
    applyUpdList (l1 ++ u :: l2) now r = applyPayload r (mkPayload u now) := by
  rw [applyUpdList_append, applyUpdList_eq_self l1 now r h1]
  unfold applyUpdList
  rw [List.foldl_cons]
  have ht : (r.id == u.id) = true := by simp [hu]
  rw [ht]
  simp only [if_true]
  have := applyUpdList_eq_self l2 now (applyPayload r (mkPayload u now))
    (fun v hv => by rw [applyPayload_id]; exact h2 v hv)
  exact this

/-- The id of every produced update occurs among the touched ids. -/
theorem updates_id_mem_touched (recs : List DbRecord) (l : List ParsedRow)
    (v : Update) (hv : v ∈ l.filterMap (fun r => (rowOutcome recs r).bind updOf)) :
    v.id ∈ l.filterMap (touchedId recs) := by
  obtain ⟨a, ha, hfa⟩ := List.mem_filterMap.mp hv
  refine List.mem_filterMap.mpr ⟨a, ha, ?_⟩
  unfold touchedId
  cases ho : rowOutcome recs a with
  | none => simp [ho] at hfa
  | some o =>
      cases o with
      | upd u =>
          simp only [ho, Option.some_bind, updOf] at hfa
          simp [ho, touchedOf, Option.some_inj.mp hfa]
      | warn w => simp [ho, updOf] at hfa
      | skip s => simp [ho, updOf] at hfa

/-- With pairwise-distinct touched ids, a row producing an update `u` splits
the updates list around `u`, and no other update targets `u`'s id. -/
theorem nodup_upd_decomp (recs : List DbRecord) (p1 p2 : List ParsedRow)
    (row : ParsedRow) (u : Update)
    (H : ((p1 ++ row :: p2).filterMap (touchedId recs)).Nodup)
    (h : rowOutcome recs row = some (.upd u)) :
    (computeOutcomes recs (p1 ++ row :: p2)).updates
      = p1.filterMap (fun r => (rowOutcome recs r).bind updOf)
        ++ u :: p2.filterMap (fun r => (rowOutcome recs r).bind updOf)
    ∧ (∀ v ∈ p1.filterMap (fun r => (rowOutcome recs r).bind updOf), v.id ≠ u.id)
    ∧ (∀ v ∈ p2.filterMap (fun r => (rowOutcome recs r).bind updOf), v.id ≠ u.id) := by
  have hT : touchedId recs row = some u.id := by simp [touchedId, h, touchedOf]
  have hsplit : (p1 ++ row :: p2).filterMap (touchedId recs)
      = p1.filterMap (touchedId recs) ++ u.id :: p2.filterMap (touchedId recs) := by
    simp [List.filterMap_append, List.filterMap_cons, hT]
  rw [hsplit, List.nodup_append] at H
  obtain ⟨h1, h2, hdisj⟩ := H
  have hnotB : u.id ∉ p2.filterMap (touchedId recs) := (List.nodup_cons.mp h2).1
  have hnotA : u.id ∉ p1.filterMap (touchedId recs) := fun hin =>
    hdisj hin (List.mem_cons_self _ _)
  refine ⟨?_, ?_, ?_⟩
  · rw [computeOutcomes_updates]
    simp [List.filterMap_append, List.filterMap_cons, h, updOf]
  · intro v hv he
    exact hnotA (he ▸ updates_id_mem_touched recs p1 v hv)
  · intro v hv he
    exact hnotB (he ▸ updates_id_mem_touched recs p2 v hv)

/-- With pairwise-distinct touched ids, the record a skipping row matched is
targeted by no update of the run. -/
theorem nodup_skip_no_target (recs : List DbRecord) (p1 p2 : List ParsedRow)
    (row : ParsedRow) (s : SkipEntry) (j : String)
    (H : ((p1 ++ row :: p2).filterMap (touchedId recs)).Nodup)
    (h : rowOutcome recs row = some (.skip s)) (hsid : s.id = some j) :
    ∀ v ∈ (computeOutcomes recs (p1 ++ row :: p2)).updates, v.id ≠ j := by
  have hT : touchedId recs row = some j := by simp [touchedId, h, touchedOf, hsid]
  have hsplit : (p1 ++ row :: p2).filterMap (touchedId recs)
      = p1.filterMap (touchedId recs) ++ j :: p2.filterMap (touchedId recs) := by
    simp [List.filterMap_append, List.filterMap_cons, hT]
  rw [hsplit, List.nodup_append] at H
  obtain ⟨h1, h2, hdisj⟩ := H
  have hnotB : j ∉ p2.filterMap (touchedId recs) := (List.nodup_cons.mp h2).1
  have hnotA : j ∉ p1.filterMap (touchedId recs) := fun hin =>
    hdisj hin (List.mem_cons_self _ _)
  have hupd : (computeOutcomes recs (p1 ++ row :: p2)).updates
      = p1.filterMap (fun r => (rowOutcome recs r).bind updOf)
        ++ p2.filterMap (fun r => (rowOutcome recs r).bind updOf) := by
    rw [computeOutcomes_updates]
    simp [List.filterMap_append, List.filterMap_cons, h, updOf]
  rw [hupd]
  intro v hv he
  rcases List.mem_append.mp hv with hv1 | hv2
  · exact hnotA (he ▸ updates_id_mem_touched recs p1 v hv1)
  · exact hnotB (he ▸ updates_id_mem_touched recs p2 v hv2)

/-- After its own update's payload is written back, a row's notes diff is
empty. -/
theorem notes_after_payload (row : ParsedRow) (m : DbRecord) (u : Update)
    (now : String) (hu : u.changes = computeChanges row m) :
    (computeChanges row (applyPayload m (mkPayload u now))).notes = none := by
  cases hr : row.notes with
  | none => simp [computeChanges, hr]
  | some n =>
      by_cases h : n = m.notes.getD ""
      · have h1 : (computeChanges row m).notes = none := by
          simp [computeChanges, hr, h]
        simp [computeChanges, hr, applyPayload, mkPayload, hu, h1, h]
      · have h1 : (computeChanges row m).notes
            = some { fromVal := m.notes.getD "", toVal := n } := by
          simp [computeChanges, hr, h]
        simp [computeChanges, hr, applyPayload, mkPayload, hu, h1, h]

/-- After its own update's payload is written back, a row's status diff is
empty. -/
theorem status_after_payload (row : ParsedRow) (m : DbRecord) (u : Update)
    (now : String) (hu : u.changes = computeChanges row m) :
    (computeChanges row (applyPayload m (mkPayload u now))).completion_status = none := by
  cases hr : row.status with
  | none => simp [computeChanges, hr]
  | some s =>
      by_cases h0 : s = ""
      · have h1 : (computeChanges row m).completion_status = none := by
          simp [computeChanges, hr, h0]
        simp [computeChanges, hr, h0, applyPayload, mkPayload, hu, h1]
      · by_cases h2 : s = m.completion_status
        · have h1 : (computeChanges row m).completion_status = none := by
            simp [computeChanges, hr, h2]
          simp [computeChanges, hr, applyPayload, mkPayload, hu, h1, h2]
        · have h1 : (computeChanges row m).completion_status
              = some { fromVal := m.completion_status, toVal := s } := by
            simp [computeChanges, hr, h0, h2]
          simp [computeChanges, hr, applyPayload, mkPayload, hu, h1, h0, h2]

/-- A row whose diff produced an update diffs to "No changes" against the
record rewritten with that update's payload. -/
theorem matchedOutcome_applyPayload (row : ParsedRow) (m : DbRecord) (u : Update)
    (now : String) (h : matchedOutcome row m = .upd u) :
    matchedOutcome row (applyPayload m (mkPayload u now))
      = .skip { row := row.rowNumber, id := some m.id, reason := "No changes" } := by
  obtain ⟨hv, -, hu⟩ := matchedOutcome_upd row m u h
  have hch : u.changes = computeChanges row m := by rw [hu]
  have hcc : computeChanges row (applyPayload m (mkPayload u now)) = ⟨none, none⟩ := by
    have h1 := notes_after_payload row m u now hch
    have h2 := status_after_payload row m u now hch
    cases hq : computeChanges row (applyPayload m (mkPayload u now))
    simp_all
  rw [matchedOutcome_eq_skip row (applyPayload m (mkPayload u now)) hv hcc]
  rfl

/-- Re-running the matcher after the no-failure apply phase maps each row's
outcome through `roundTrip`: updates become "No changes" skips, warnings and
skips are reproduced, dropped rows stay dropped — provided no two rows of the
run resolved to the same stored record id. -/
theorem rowOutcome_after_apply (recs : List DbRecord) (rows : List ParsedRow)
    (row : ParsedRow) (now : String) (hmem : row ∈ rows)
    (H : (rows.filterMap (touchedId recs)).Nodup) :
    rowOutcome (recs.map (applyUpdList (computeOutcomes recs rows).updates now)) row
      = (rowOutcome recs row).map roundTrip := by
  obtain ⟨p1, p2, hrows⟩ := List.append_of_mem hmem
  subst hrows
  set us := (computeOutcomes recs (p1 ++ row :: p2)).updates with hus
  set f := applyUpdList us now with hf
  have hfid : ∀ r, (f r).id = r.id := fun r => applyUpdList_id us now r
  have hfcn : ∀ r, (f r).check_number = r.check_number := fun r =>
    applyUpdList_check_number us now r
  have hmatched : ∀ m : DbRecord,
      rowOutcome recs row = some (matchedOutcome row m) →
      matchedOutcome row (f m) = roundTrip (matchedOutcome row m) := by
    intro m hro
    cases ho : matchedOutcome row m with
    | warn w =>
        obtain ⟨hv, hw⟩ := matchedOutcome_warn row m w ho
        unfold matchedOutcome
        simp [roundTrip, hv, hw, hfcn m]
    | skip s =>
        obtain ⟨hv, hcc, hs⟩ := matchedOutcome_skip row m s ho
        have hnt : ∀ v ∈ us, v.id ≠ m.id := by
          refine nodup_skip_no_target recs p1 p2 row s m.id H (by rw [hro, ho]) ?_
          rw [hs]
        rw [hf, applyUpdList_eq_self us now m hnt, ho, roundTrip]
    | upd u =>
        obtain ⟨hdec, hA, hB⟩ := nodup_upd_decomp recs p1 p2 row u H (by rw [hro, ho])
        obtain ⟨-, -, hu⟩ := matchedOutcome_upd row m u ho
        have huid : u.id = m.id := by rw [hu]
        have hfm : f m = applyPayload m (mkPayload u now) := by
          rw [hf, hus, hdec]
          exact applyUpdList_single _ _ u now m
            (fun v hv => huid ▸ hA v hv) (fun v hv => huid ▸ hB v hv) huid
        rw [hfm, matchedOutcome_applyPayload row m u now ho]
        simp [roundTrip, hu]
  unfold rowOutcome
  cases hb : strTruthy row.id
  · cases hc : strTruthy row.checkNumber
    · simp [hb, hc]
    · simp only [hb, hc, Bool.false_eq_true, if_false, if_true]
      rw [dbByCheckNumber_get_map recs f hfcn]
      cases hbk : dbByCheckNumber_get recs (row.checkNumber.getD "") with
      | nil => simp [roundTrip]
      | cons a t =>
          cases t with
          | nil =>
              have hside : rowOutcome recs row = some (matchedOutcome row a) := by
                unfold rowOutcome
                simp [hb, hc, hbk]
              simp [hmatched a hside]
          | cons b t' => simp [roundTrip]
  · simp only [hb, if_true]
    rw [dbById_get_map recs f hfid]
    cases hid : dbById_get recs (row.id.getD "") with
    | none => simp [roundTrip]
    | some m =>
        have hside : rowOutcome recs row = some (matchedOutcome row m) := by
          unfold rowOutcome
          simp [hb, hid]
        simp [hmatched m hside]

/-- C7 counterexample: with two sheet rows targeting the same stored record
with different notes values, applying the preview's updates and re-running
preview does *not* yield an empty updates list — the claim fails without a
distinct-targets hypothesis. -/
theorem c7_counterexample :
    (computeOutcomes
        ((persistUpdates (fun _ => none) "2025-01-01T00:00:00.000Z"
            (computeOutcomes [⟨"1", "100", none, "Pending", none⟩]
              [⟨2, some "1", none, some "a", none⟩,
               ⟨3, some "1", none, some "b", none⟩]).updates
            [⟨"1", "100", none, "Pending", none⟩]).2.2)
        [⟨2, some "1", none, some "a", none⟩,
         ⟨3, some "1", none, some "b", none⟩]).updates ≠ [] := by
  decide

/-- C7 (amended): provided no two rows of the run resolve to the same stored
record id (the touched ids are pairwise distinct), applying every Update of a
preview to the snapshot and re-running preview yields an empty updates list,
and every previously-diffed row now appears in skipped with reason
"No changes". -/
theorem c7_roundtrip (recs : List DbRecord) (rows : List ParsedRow) (now : String)
    (H : (rows.filterMap (touchedId recs)).Nodup) :
    (computeOutcomes
        ((persistUpdates (fun _ => none) now (computeOutcomes recs rows).updates recs).2.2)
        rows).updates = []
    ∧ ∀ u ∈ (computeOutcomes recs rows).updates,
        ({ row := u.row, id := some u.id, reason := "No changes" } : SkipEntry)
          ∈ (computeOutcomes
              ((persistUpdates (fun _ => none) now (computeOutcomes recs rows).updates recs).2.2)
              rows).skipped := by
  have hst : (persistUpdates (fun _ => none) now (computeOutcomes recs rows).updates recs).2.2
      = recs.map (applyUpdList (computeOutcomes recs rows).updates now) := by
    rw [persistUpdates_noFail_store, foldl_writeOne_eq_map]
  rw [hst]
  constructor
  · rw [computeOutcomes_updates, List.filterMap_eq_nil_iff]
    intro r hr
    rw [rowOutcome_after_apply recs rows r now hr H]
    cases ho : rowOutcome recs r with
    | none => rfl
    | some o => cases o <;> simp [roundTrip, updOf]
  · intro u hu
    rw [computeOutcomes_updates] at hu
    obtain ⟨r, hrmem, hfr⟩ := List.mem_filterMap.mp hu
    have hro : rowOutcome recs r = some (.upd u) := by
      cases ho : rowOutcome recs r with
      | none => simp [ho] at hfr
      | some o => cases o <;> simp_all [updOf]
    have hnew : rowOutcome (recs.map (applyUpdList (computeOutcomes recs rows).updates now)) r
        = some (.skip { row := u.row, id := some u.id, reason := "No changes" }) := by
      rw [rowOutcome_after_apply recs rows r now hrmem H, hro]
      rfl
    exact mem_skipped_of_outcome _ rows r _ hrmem hnew

/-- Witness for C2: id "1" is absent from the empty snapshot, so the row is
warned and produces no other outcome. -/
theorem c2_witness :
    rowOutcome [] ⟨2, some "1", some "100", some "x", none⟩
      = some (.warn ⟨2, none, "No record found for ID \"" ++ "1" ++ "\""⟩)
    ∧ (⟨2, none, "No record found for ID \"" ++ "1" ++ "\""⟩ : Warning)
        ∈ (computeOutcomes [] [⟨2, some "1", some "100", some "x", none⟩]).warnings :=
  c2_unknown_id_warns [] [⟨2, some "1", some "100", some "x", none⟩]
    ⟨2, some "1", some "100", some "x", none⟩ "1" (by decide) rfl (by decide) rfl

/-- Witness for C3 (amended) at a singleton check-number bucket. -/
theorem c3_witness :
    (computeChanges c3row c3rec = ⟨none, none⟩
        ∧ rowOutcome [c3rec] c3row
            = some (.skip { row := c3row.rowNumber, id := some c3rec.id, reason := "No changes" })
        ∧ ({ row := c3row.rowNumber, id := some c3rec.id, reason := "No changes" } : SkipEntry)
            ∈ (computeOutcomes [c3rec] [c3row]).skipped)
    ∨ (computeChanges c3row c3rec ≠ ⟨none, none⟩
        ∧ rowOutcome [c3rec] c3row
            = some (.upd
                { row := c3row.rowNumber, id := c3rec.id,
                  checkNumber := c3rec.check_number, changes := computeChanges c3row c3rec })
        ∧ ({ row := c3row.rowNumber, id := c3rec.id, checkNumber := c3rec.check_number,
              changes := computeChanges c3row c3rec } : Update)
            ∈ (computeOutcomes [c3rec] [c3row]).updates) :=
  (c3_checknumber_fallback [c3rec] [c3row] c3row "200"
      (by decide) (by decide) rfl (by decide)).1 c3rec (by decide) (by decide)

/-- Witness for C5 at Scenario A: both fields differ, so the row produces the
update carrying the computed change set. -/
theorem c5_witness :
    rowOutcome exRecsA exRowA
      = some (.upd
          { row := exRowA.rowNumber, id := exRecA0.id, checkNumber := exRecA0.check_number,
            changes := computeChanges exRowA exRecA0 }) :=
  (c5_diff_engine exRecsA exRowA exRecA0 (by decide) (by decide)).2.2.2.2.2 (by decide)

/-- Witness for C6: status "Voided" on a matched row with differing notes
still yields only the invalid-status warning. -/
theorem c6_witness :
    rowOutcome [exRecA0] c6row
      = some (.warn
          { row := c6row.rowNumber, checkNumber := some exRecA0.check_number,
            message := "Invalid status \"" ++ "Voided"
              ++ "\". Must be: Pending, Complete, Request Invalidated" }) :=
  c6_invalid_status_rejected [exRecA0] c6row exRecA0 "Voided"
    (by decide) rfl (by decide) (by decide)

/-- Witness for C7 (amended) at Scenario A: after applying the single update,
re-running preview yields no updates and the row skips with "No changes". -/
theorem c7_witness :
    (computeOutcomes
        ((persistUpdates (fun _ => none) "2025-01-01T00:00:00.000Z"
            (computeOutcomes exRecsA [exRowA]).updates exRecsA).2.2) [exRowA]).updates = []
    ∧ ({ row := exUpdA.row, id := some exUpdA.id, reason := "No changes" } : SkipEntry)
        ∈ (computeOutcomes
            ((persistUpdates (fun _ => none) "2025-01-01T00:00:00.000Z"
                (computeOutcomes exRecsA [exRowA]).updates exRecsA).2.2) [exRowA]).skipped :=
  ⟨(c7_roundtrip exRecsA [exRowA] "2025-01-01T00:00:00.000Z" (by decide)).1,
   (c7_roundtrip exRecsA [exRowA] "2025-01-01T00:00:00.000Z" (by decide)).2
     exUpdA (by decide)⟩

/-- Witness for C8 at Scenario A's update: all three payload fields are
present and the written sign_off_date is non-null because the new status is
Complete. -/
theorem c8_witness :
    ((mkPayload exUpdA "T").notes.isSome ↔ exUpdA.changes.notes.isSome)
    ∧ ((mkPayload exUpdA "T").completion_status.isSome
        ↔ exUpdA.changes.completion_status.isSome)
    ∧ ((mkPayload exUpdA "T").sign_off_date.isSome
        ↔ exUpdA.changes.completion_status.isSome)
    ∧ ((applyPayload exRecA0 (mkPayload exUpdA "T")).sign_off_date ≠ none
        ↔ (Change.mk "Pending" "Complete").toVal = "Complete") :=
  ⟨(c8_signoff_coupling exUpdA "T" exRecA0).1,
   (c8_signoff_coupling exUpdA "T" exRecA0).2.1,
   (c8_signoff_coupling exUpdA "T" exRecA0).2.2.1,
   (c8_signoff_coupling exUpdA "T" exRecA0).2.2.2.1 ⟨"Pending", "Complete"⟩ rfl⟩

/-- Witness for C10: an absent action field takes the apply path. -/
theorem c10_witness :
    handlePost none exRecsA [exRowA] (fun _ => none) "T"
      = previewThenPersist exRecsA [exRowA] (fun _ => none) "T" :=
  c10_non_preview_applies none exRecsA [exRowA] (fun _ => none) "T" (by decide)

end VoidChecks
